import Mathlib

/-!
# Verification of the Synchronizer parsers

Shallow embedding of the two parsers of the repository:
* `src/parser/nozomi.rs` — the binary index parser (`Nozomi`);
* `src/parser/gallery.rs` — the HTML metadata parser (`Gallery`).

Rust `anyhow::Result` errors are modelled by `Outcome.err`; a panic caused
by `unwrap()` / `expect()` (a process abort, not a returned error value) is
modelled by the distinct constructor `Outcome.panic`.  Machine integers are
modelled by `Nat`/`Int`; `usize` arithmetic whose debug-mode overflow checks
can fire is modelled with explicit checked operations returning `Option`
(`none` = arithmetic panic).  Bytes are `Fin 256`, matching Rust's `u8`.
-/

/-- Result of running a piece of Rust code: a returned value (`ok`), a
returned error value (`err`, i.e. `anyhow::Error`), or a process abort
(`panic`, from `unwrap`/`expect`). -/
inductive Outcome (α : Type) where
  | ok : α → Outcome α
  | err : String → Outcome α
  | panic : String → Outcome α
deriving Repr, DecidableEq

namespace Outcome

def bind {α β : Type} : Outcome α → (α → Outcome β) → Outcome β
  | .ok a, f => f a
  | .err e, _ => .err e
  | .panic m, _ => .panic m

instance : Monad Outcome where
  pure := .ok
  bind := Outcome.bind

@[simp] theorem bind_ok {α β : Type} (a : α) (f : α → Outcome β) :
    Outcome.bind (.ok a) f = f a := rfl

@[simp] theorem bind_err {α β : Type} (e : String) (f : α → Outcome β) :
    Outcome.bind (.err e) f = .err e := rfl

@[simp] theorem bind_panic {α β : Type} (m : String) (f : α → Outcome β) :
    Outcome.bind (.panic m) f = .panic m := rfl

@[simp] theorem monad_bind_eq_bind {α β : Type} (x : Outcome α) (f : α → Outcome β) :
    (x >>= f) = Outcome.bind x f := rfl

@[simp] theorem pure_eq_ok {α : Type} (a : α) : (pure a : Outcome α) = .ok a := rfl

end Outcome

/-- `Option.unwrap()`: a `None` is a process abort. -/
def unwrapO {α : Type} (m : String) : Option α → Outcome α
  | some a => .ok a
  | none => .panic m

@[simp] theorem unwrapO_some {α : Type} (m : String) (a : α) :
    unwrapO m (some a) = .ok a := rfl

@[simp] theorem unwrapO_none {α : Type} (m : String) :
    unwrapO m (none : Option α) = .panic m := rfl

/-! ## usize arithmetic (checked, 64-bit model)

Rust's debug build aborts on overflow/underflow of `usize` arithmetic; we
model each operation as a checked operation on `Nat`, where `none` stands
for that arithmetic panic.  No validation or error return exists in the
source: an out-of-range input aborts the process. -/

def USIZE_SIZE : Nat := 2 ^ 64

def usizeSub (a b : Nat) : Option Nat :=
  if b ≤ a then some (a - b) else none

def usizeMul (a b : Nat) : Option Nat :=
  if a * b < USIZE_SIZE then some (a * b) else none

def usizeAdd (a b : Nat) : Option Nat :=
  if a + b < USIZE_SIZE then some (a + b) else none

/-! ## The Nozomi parser (`src/parser/nozomi.rs`) -/

/-- `struct Nozomi` of `src/parser/nozomi.rs`: page, per-page, language code
and the optional raw payload (`request_data: Option<Box<Bytes>>`). -/
structure Nozomi where
  page : Nat
  per_page : Nat
  language : String
  request_data : Option (List (Fin 256))
deriving Repr, DecidableEq

namespace Nozomi

/-- `Nozomi::new`: constructs an unfetched instance. -/
def new (page per_page : Nat) (language : String) : Nozomi :=
  { page := page, per_page := per_page, language := language,
    request_data := none }

/-- `Nozomi::request_data(&self)`: payload accessor; an unfetched instance
yields the returned error `"Can't get request_data"` (the NotFetchedError). -/
def request_data_acc (n : Nozomi) : Outcome (List (Fin 256)) :=
  match n.request_data with
  | some rd => .ok rd
  | none => .err "Can't get request_data"

/-- `Nozomi::url`: the index address for the language. -/
def url (n : Nozomi) : String :=
  "https://ltn.hitomi.la/index-" ++ n.language.toLower ++ ".nozomi"

/-- The byte range computed by `Nozomi::request`:
`start = (page - 1) * per_page * 4`, `end = start + per_page * 4 - 1`,
with every step of the unchecked `usize` arithmetic of the source made
explicit (`none` = debug-mode arithmetic abort). -/
def byteRange (page per_page : Nat) : Option (Nat × Nat) := do
  let pm1 ← usizeSub page 1
  let t1 ← usizeMul pm1 per_page
  let start_bytes ← usizeMul t1 4
  let t2 ← usizeMul per_page 4
  let t3 ← usizeAdd start_bytes t2
  let end_bytes ← usizeSub t3 1
  some (start_bytes, end_bytes)

/-- `Nozomi::request`: computes the byte range, issues the ranged GET (the
network is external: the fetched bytes are a parameter) and stores the
payload.  Returns the fetched instance together with the value of the
`Range` header it sent. -/
def request (n : Nozomi) (fetched : List (Fin 256)) : Option (Nozomi × String) :=
  match byteRange n.page n.per_page with
  | none => none
  | some (s, e) =>
      some ({ n with request_data := some fetched },
            "bytes=" ++ toString s ++ "-" ++ toString e)

/-- `TryInto::<i32>::try_into` on a byte: fails (a `DecodeError`) only when
the value exceeds the `i32` range, which a `u8` never does. -/
def tryIntoI32 (b : Fin 256) : Outcome Int :=
  if (b : Nat) ≤ 2147483647 then .ok (b : Nat) else .err "DecodeError"

/-- The inner loop of `Nozomi::parse` (`for j in 0..3`): reads the byte at
`i + (3 - j)` and accumulates `temp += byte << (j << 3)`.  A missing byte is
`break 'a` (modelled by `ok none`); `ok (some temp)` is a decoded record.
The shifts and sums stay far below `i32::MAX`, so plain `Int` arithmetic is
exact. -/
def innerLoop (data : List (Fin 256)) (i : Nat) : Nat → Int → Outcome (Option Int)
  | j, temp =>
    if _h : j < 3 then
      match data[i + (3 - j)]? with
      | some a =>
          Outcome.bind (tryIntoI32 a) fun v =>
            innerLoop data i (j + 1) (temp + v * 2 ^ (j * 8))
      | none => .ok none
    else .ok (some temp)
termination_by j _ => 3 - j

/-- The outer loop of `Nozomi::parse` (`for i in (0..len).step_by(4)`):
decodes records at offsets `0, 4, 8, …`; a truncated record stops the loop
(`break 'a`), returning the records decoded so far. -/
def outerLoop (data : List (Fin 256)) (i : Nat) : Outcome (List Int) :=
  if _h : i < data.length then
    Outcome.bind (innerLoop data i 0 0) fun rec? =>
      match rec? with
      | none => .ok []
      | some temp =>
          Outcome.bind (outerLoop data (i + 4)) fun rest => .ok (temp :: rest)
  else .ok []
termination_by data.length - i

/-- `res.sort_by(|a, b| b.cmp(a))`: descending sort. -/
def sortDesc (l : List Int) : List Int :=
  l.mergeSort (fun a b => decide (b ≤ a))

/-- `Nozomi::parse`: accesses the payload (NotFetchedError when unfetched),
decodes the records and returns them sorted descending. -/
def parse (n : Nozomi) : Outcome (List Int) :=
  Outcome.bind n.request_data_acc fun rd =>
    Outcome.bind (outerLoop rd 0) fun res => .ok (sortDesc res)

end Nozomi

/-! ## HTML document model

The `scraper` crate is an external collaborator; we model the parsed HTML
document as a node tree and the selector operations the source uses
(`element.text()`, descendant tag selection `ul` / `li` / `tr` / `td`, and
the child-combinator selectors `.gallery-info > table` and `body > a`)
directly on that tree, in document (pre)order. -/

/-- An HTML node: an element with a tag, attributes and children, or a text
node. -/
inductive Node where
  | elem (tag : String) (attrs : List (String × String)) (children : List Node)
  | text (s : String)

namespace Node

/-- All text-node contents among the descendants of a node, in document
order.  `element.text()` of `scraper` iterates exactly these for an element;
`.next()` is the head of this list. -/
def allTexts : Node → List String
  | .text s => [s]
  | .elem _ _ cs => textsList cs
where textsList : List Node → List String
  | [] => []
  | c :: cs => allTexts c ++ textsList cs

/-- First text node of an element (`element.text().next()`). -/
def headText (n : Node) : Option String :=
  n.allTexts.head?

/-- The proper descendants of a node (elements and text nodes), in document
(pre)order. -/
def descendants : Node → List Node
  | .text _ => []
  | .elem _ _ cs => descList cs
where descList : List Node → List Node
  | [] => []
  | c :: cs => c :: descendants c ++ descList cs

/-- Does this node match a bare tag selector? -/
def isTag (t : String) : Node → Bool
  | .elem tag _ _ => tag == t
  | .text _ => false

/-- Attribute lookup on an element (`element.value().attr(name)`). -/
def attr (name : String) : Node → Option String
  | .elem _ attrs _ => attrs.lookup name
  | .text _ => none

/-- Does this node match a class selector `.c`?  The `class` attribute is a
whitespace-separated list of class names. -/
def hasClass (c : String) : Node → Bool
  | .elem _ attrs _ =>
      match attrs.lookup "class" with
      | some v => (v.splitOn " ").contains c
      | none => false
  | .text _ => false

/-- `element.select(tag)`: the descendant elements matching a bare tag
selector, in document order (the element itself is not a candidate). -/
def selectTag (n : Node) (t : String) : List Node :=
  n.descendants.filter (isTag t)

/-- Selection for a child-combinator selector `P > C`: the nodes matching
`C` whose parent matches `P`, in document order over the whole subtree. -/
def selectChildOf (pp cp : Node → Bool) : Node → List Node
  | .text _ => []
  | .elem tag attrs cs => childList pp cp (pp (.elem tag attrs cs)) cs
where childList (pp cp : Node → Bool) : Bool → List Node → List Node
  | _, [] => []
  | pm, c :: cs =>
      (if pm && cp c then [c] else []) ++ selectChildOf pp cp c
        ++ childList pp cp pm cs

end Node

/-! ## The metadata model (`crate::models`, not under `src/`) -/

/-- Modelled from the spec: the field-tag type `Metadata` of the missing
`models` module — a closed set of variants, each wrapping an optional
value; the parser source names the variants `ID`, `Title`, `Artists`,
`Series`, `Characters`, `Groups`, `Tags`, `Language`, `ContentType`,
`CreatedAt`, `ThumbnailURL`. -/
inductive Metadata where
  | ID : Option Int → Metadata
  | Title : Option String → Metadata
  | Artists : Option (List String) → Metadata
  | Series : Option (List String) → Metadata
  | Characters : Option (List String) → Metadata
  | Groups : Option (List String) → Metadata
  | Tags : Option (List String) → Metadata
  | Language : Option String → Metadata
  | ContentType : Option String → Metadata
  | CreatedAt : Option String → Metadata
  | ThumbnailURL : Option String → Metadata
deriving Repr, DecidableEq

/-- Modelled from the spec: `Metadata::as_str` of the missing `models`
module — the canonical row-label string of each field tag, exact-match
(the spec names the literal labels "Characters" / "Groups"). -/
def Metadata.as_str : Metadata → String
  | .ID _ => "ID"
  | .Title _ => "Title"
  | .Artists _ => "Artists"
  | .Series _ => "Series"
  | .Characters _ => "Characters"
  | .Groups _ => "Groups"
  | .Tags _ => "Tags"
  | .Language _ => "Language"
  | .ContentType _ => "Type"
  | .CreatedAt _ => "CreatedAt"
  | .ThumbnailURL _ => "ThumbnailURL"

/-- Modelled from the spec: the aggregate `MetadataBook` of the missing
`models` module — exactly one slot per field tag. -/
structure MetadataBook where
  id : Metadata
  title : Metadata
  artists : Metadata
  series : Metadata
  characters : Metadata
  groups : Metadata
  tags : Metadata
  language : Metadata
  content_type : Metadata
  created_at : Metadata
  thumbnail_url : Metadata
deriving Repr, DecidableEq

/-! ## The Gallery parser (`src/parser/gallery.rs`) -/

/-- `struct Gallery` of `src/parser/gallery.rs`: the item id and the
optional raw HTML payload. -/
structure Gallery where
  id : Int
  request_data : Option String

namespace Gallery

/-- `Gallery::new`: constructs an unfetched instance. -/
def new (id : Int) : Gallery :=
  { id := id, request_data := none }

/-- `Gallery::request_data(&self)`: payload accessor; an unfetched instance
yields the returned error `"Can't get request_data"` (the NotFetchedError). -/
def request_data_acc (g : Gallery) : Outcome String :=
  match g.request_data with
  | some rd => .ok rd
  | none => .err "Can't get request_data"

/-- `Gallery::is_nothing`: `element.text().next().unwrap().trim() == "N/A"`.
The `unwrap` on an element with no text node is a process abort. -/
def is_nothing (e : Node) : Outcome Bool :=
  Outcome.bind (unwrapO "is_nothing: no text node" e.headText) fun t =>
    .ok (t.trim == "N/A")

/-- `.map(|element| element.text().next().unwrap().to_string()).collect()`
inside `Gallery::parse_multiple_metadata`: the `li` texts, left to right,
aborting at the first `li` with no text node. -/
def liTexts : List Node → Outcome (List String)
  | [] => .ok []
  | li :: lis =>
      Outcome.bind (unwrapO "parse_multiple_metadata: li has no text" li.headText)
        fun t =>
          Outcome.bind (liTexts lis) fun ts => .ok (t :: ts)

/-- `Gallery::parse_multiple_metadata`: first descendant `ul` (`unwrap`!),
then each descendant `li`'s first text node (`unwrap`!), collected in list
order. -/
def parse_multiple_metadata (e : Node) : Outcome (List String) :=
  Outcome.bind (unwrapO "parse_multiple_metadata: no ul" (e.selectTag "ul").head?)
    fun ul =>
      liTexts (ul.selectTag "li")

/-- `Gallery::parse_characters`: list extraction with no sentinel check; an
empty extracted list becomes `none` (absent). -/
def parse_characters (e : Node) : Outcome (Option (List String)) :=
  Outcome.bind (parse_multiple_metadata e) fun characters =>
    if characters.isEmpty then .ok none else .ok (some characters)

/-- `Gallery::parse_groups`: the `"N/A"` sentinel check first; otherwise the
extracted list is returned populated, with no emptiness check. -/
def parse_groups (e : Node) : Outcome (Option (List String)) :=
  Outcome.bind (is_nothing e) fun nothing =>
    if nothing then .ok none
    else
      Outcome.bind (parse_multiple_metadata e) fun groups => .ok (some groups)

/-- The row search of `Gallery::parse_metadata`:
`.find(|tr| tr.select(td).next().unwrap().text().next().unwrap() == label)`
followed by `.unwrap()` on the find result.  Every failure point is a
process abort, never a returned error. -/
def findRow (label : String) : List Node → Outcome Node
  | [] => .panic "parse_metadata: no matching row"
  | r :: rs =>
      Outcome.bind (unwrapO "parse_metadata: row has no td" (r.selectTag "td").head?)
        fun td =>
          Outcome.bind (unwrapO "parse_metadata: td has no text" td.headText)
            fun t =>
              if t == label then .ok r else findRow label rs

/-- `Gallery::parse_metadata`: locates `.gallery-info > table` (`unwrap`!),
finds the row whose first `td` text equals the field's label, takes the
row's second `td` (`unwrap`!) as the value region and dispatches on the
field tag. -/
def parse_metadata (document : Node) (metadata_type : Metadata) : Outcome Metadata :=
  Outcome.bind
    (unwrapO "parse_metadata: no .gallery-info > table"
      (document.selectChildOf (Node.hasClass "gallery-info") (Node.isTag "table")).head?)
    fun tbl =>
      Outcome.bind (findRow metadata_type.as_str (tbl.selectTag "tr")) fun row =>
        Outcome.bind (unwrapO "parse_metadata: no second td" (row.selectTag "td")[1]?)
          fun r =>
            match metadata_type with
            | .Characters _ =>
                Outcome.bind (parse_characters r) fun v => .ok (.Characters v)
            | .Groups _ =>
                Outcome.bind (parse_groups r) fun v => .ok (.Groups v)
            | mt => .ok mt

/-- The pure extraction step of `Gallery::url`: from the fetched redirect
document, the first `body > a` anchor (`unwrap`!) and its `href` attribute
(`expect`!).  Both failure points are process aborts. -/
def resolve_content_url (document : Node) : Outcome String :=
  Outcome.bind
    (unwrapO "url: no body > a anchor"
      (document.selectChildOf (Node.isTag "body") (Node.isTag "a")).head?)
    fun anchor =>
      unwrapO "Can't find `Content URL` in `parser::Gallery`" (anchor.attr "href")

/-- `Gallery::request`: fetches the content page (network external — the
fetched HTML text is a parameter) and stores it as the payload. -/
def request (g : Gallery) (fetched : String) : Gallery :=
  { g with request_data := some fetched }

/-- `Gallery::parse`: accesses the payload (NotFetchedError when unfetched),
parses it as HTML (the `scraper` document parser is external — passed as
`parseDoc`), decodes Characters then Groups, and builds the book with every
other slot absent. -/
def parse (parseDoc : String → Node) (g : Gallery) : Outcome MetadataBook :=
  Outcome.bind g.request_data_acc fun rd =>
    let document := parseDoc rd
    Outcome.bind (parse_metadata document (.Characters none)) fun characters =>
      Outcome.bind (parse_metadata document (.Groups none)) fun groups =>
        .ok { characters := characters
              groups := groups
              id := .ID none
              title := .Title none
              artists := .Artists none
              series := .Series none
              tags := .Tags none
              language := .Language none
              content_type := .ContentType none
              created_at := .CreatedAt none
              thumbnail_url := .ThumbnailURL none }

end Gallery

/-! ## Lemmas about the Nozomi decoder -/

namespace Nozomi

theorem tryIntoI32_eq_ok (b : Fin 256) : tryIntoI32 b = .ok ((b : Nat) : Int) := by
  unfold tryIntoI32
  rw [if_pos]
  exact Nat.le_of_lt (lt_of_lt_of_le b.isLt (by norm_num))

theorem innerLoop_step (data : List (Fin 256)) (i j : Nat) (temp : Int) (hj : j < 3)
    (b : Fin 256) (hb : data[i + (3 - j)]? = some b) :
    innerLoop data i j temp
      = innerLoop data i (j + 1) (temp + ((b : Nat) : Int) * 2 ^ (j * 8)) := by
  conv_lhs => rw [innerLoop]
  simp [hj, hb, tryIntoI32_eq_ok]

theorem innerLoop_break (data : List (Fin 256)) (i j : Nat) (temp : Int) (hj : j < 3)
    (hb : data[i + (3 - j)]? = none) :
    innerLoop data i j temp = .ok none := by
  rw [innerLoop]
  simp [hj, hb]

theorem innerLoop_finish (data : List (Fin 256)) (i : Nat) (temp : Int) :
    innerLoop data i 3 temp = .ok (some temp) := by
  rw [innerLoop]
  simp

/-- A complete record at offset `i` decodes to
`data[i+1] * 2^16 + data[i+2] * 2^8 + data[i+3]`; the byte at offset `i`
is never read. -/
theorem innerLoop_complete (data : List (Fin 256)) (i : Nat) (b1 b2 b3 : Fin 256)
    (h1 : data[i + 1]? = some b1) (h2 : data[i + 2]? = some b2)
    (h3 : data[i + 3]? = some b3) :
    innerLoop data i 0 0
      = .ok (some (((b1 : Nat) : Int) * 65536 + ((b2 : Nat) : Int) * 256 + ((b3 : Nat) : Int))) := by
  rw [innerLoop_step data i 0 0 (by norm_num) b3 h3]
  rw [innerLoop_step data i 1 _ (by norm_num) b2 h2]
  rw [innerLoop_step data i 2 _ (by norm_num) b1 h1]
  rw [innerLoop_finish]
  norm_num
  ring_nf

end Nozomi

namespace Nozomi

/-- The outer loop always succeeds, and decodes one identifier per complete
record remaining: starting at offset `i`, that is `(data.length - i) / 4`
records. -/
theorem outerLoop_ok_len (data : List (Fin 256)) :
    ∀ fuel i, data.length - i ≤ fuel →
      ∃ l, outerLoop data i = .ok l ∧ l.length = (data.length - i) / 4 := by
  intro fuel
  induction fuel with
  | zero =>
      intro i hi
      have hnlt : ¬ i < data.length := by omega
      rw [outerLoop]
      simp only [hnlt, dite_false]
      exact ⟨[], rfl, by simp; omega⟩
  | succ fuel ih =>
      intro i hi
      by_cases hlt : i < data.length
      · by_cases hc : i + 3 < data.length
        · have hb1 : i + 1 < data.length := by omega
          have hb2 : i + 2 < data.length := by omega
          have hb3 : i + 3 < data.length := by omega
          have h1 : data[i + 1]? = some data[i + 1] := List.getElem?_eq_getElem hb1
          have h2 : data[i + 2]? = some data[i + 2] := List.getElem?_eq_getElem hb2
          have h3 : data[i + 3]? = some data[i + 3] := List.getElem?_eq_getElem hb3
          have hin := innerLoop_complete data i _ _ _ h1 h2 h3
          obtain ⟨rest, hrest, hlen⟩ := ih (i + 4) (by omega)
          refine ⟨(((data[i + 1] : Nat) : Int) * 65536 + ((data[i + 2] : Nat) : Int) * 256
            + ((data[i + 3] : Nat) : Int)) :: rest, ?_, ?_⟩
          · rw [outerLoop]
            simp only [hlt, dite_true, hin, Outcome.bind_ok, hrest]
          · simp only [List.length_cons, hlen]
            omega
        · have h3 : data[i + 3]? = none := by
            rw [List.getElem?_eq_none]
            omega
          have hin := innerLoop_break data i 0 0 (by norm_num) h3
          refine ⟨[], ?_, ?_⟩
          · rw [outerLoop]
            simp only [hlt, dite_true, hin, Outcome.bind_ok]
          · simp only [List.length_nil]
            omega
      · rw [outerLoop]
        simp only [hlt, dite_false]
        exact ⟨[], rfl, by simp; omega⟩

/-- Specialization: the decode loop never fails, and its result has one
element per complete 4-byte record of the payload. -/
theorem outerLoop_spec (data : List (Fin 256)) (i : Nat) :
    ∃ l, outerLoop data i = .ok l ∧ l.length = (data.length - i) / 4 :=
  outerLoop_ok_len data data.length i (by omega)

end Nozomi

namespace Nozomi

/-- The `k`-th element of the (pre-sort) decode of the loop started at
offset `i` is the record at offset `i + 4 * k`, decoded from its last three
bytes, most significant first. -/
theorem outerLoop_get (data : List (Fin 256)) :
    ∀ k i (b1 b2 b3 : Fin 256),
      data[i + 4 * k + 1]? = some b1 → data[i + 4 * k + 2]? = some b2 →
      data[i + 4 * k + 3]? = some b3 →
      ∃ l, outerLoop data i = .ok l ∧
        l[k]? = some (((b1 : Nat) : Int) * 65536 + ((b2 : Nat) : Int) * 256
          + ((b3 : Nat) : Int)) := by
  intro k
  induction k with
  | zero =>
      intro i b1 b2 b3 h1 h2 h3
      simp only [Nat.mul_zero, Nat.add_zero] at h1 h2 h3
      have hin := innerLoop_complete data i b1 b2 b3 h1 h2 h3
      have hlt3 : i + 3 < data.length := by
        by_contra hK
        rw [List.getElem?_eq_none (by omega)] at h3
        exact Option.noConfusion h3
      obtain ⟨rest, hrest, -⟩ := outerLoop_spec data (i + 4)
      refine ⟨(((b1 : Nat) : Int) * 65536 + ((b2 : Nat) : Int) * 256
        + ((b3 : Nat) : Int)) :: rest, ?_, by simp⟩
      rw [outerLoop]
      simp only [show i < data.length by omega, dite_true, hin, Outcome.bind_ok, hrest]
  | succ k ih =>
      intro i b1 b2 b3 h1 h2 h3
      have h1a : data[(i + 4) + 4 * k + 1]? = some b1 := by
        rw [show (i + 4) + 4 * k + 1 = i + 4 * (k + 1) + 1 by ring]; exact h1
      have h2a : data[(i + 4) + 4 * k + 2]? = some b2 := by
        rw [show (i + 4) + 4 * k + 2 = i + 4 * (k + 1) + 2 by ring]; exact h2
      have h3a : data[(i + 4) + 4 * k + 3]? = some b3 := by
        rw [show (i + 4) + 4 * k + 3 = i + 4 * (k + 1) + 3 by ring]; exact h3
      obtain ⟨rest, hrest, hget⟩ := ih (i + 4) b1 b2 b3 h1a h2a h3a
      have hlt3 : i + 4 * (k + 1) + 3 < data.length := by
        by_contra hK
        rw [List.getElem?_eq_none (by omega)] at h3
        exact Option.noConfusion h3
      have hc1 : i + 1 < data.length := by omega
      have hc2 : i + 2 < data.length := by omega
      have hc3 : i + 3 < data.length := by omega
      have hin := innerLoop_complete data i data[i + 1] data[i + 2] data[i + 3]
        (List.getElem?_eq_getElem hc1) (List.getElem?_eq_getElem hc2)
        (List.getElem?_eq_getElem hc3)
      refine ⟨(((data[i + 1] : Nat) : Int) * 65536 + ((data[i + 2] : Nat) : Int) * 256
        + ((data[i + 3] : Nat) : Int)) :: rest, ?_, ?_⟩
      · rw [outerLoop]
        simp only [show i < data.length by omega, dite_true, hin, Outcome.bind_ok, hrest]
      · simpa using hget

/-- The boolean comparison `|a, b| b.cmp(a)` is transitive and total, so the
sorted output of `sort_by` is pairwise descending. -/
theorem sortDesc_pairwise (l : List Int) :
    (sortDesc l).Pairwise (fun a b => b ≤ a) := by
  have htrans : ∀ (a b c : Int),
      (fun a b : Int => decide (b ≤ a)) a b → (fun a b : Int => decide (b ≤ a)) b c →
      (fun a b : Int => decide (b ≤ a)) a c := by
    intro a b c h1 h2
    simp only [decide_eq_true_eq] at h1 h2 ⊢
    omega
  have htotal : ∀ (a b : Int),
      ((fun a b : Int => decide (b ≤ a)) a b || (fun a b : Int => decide (b ≤ a)) b a) := by
    intro a b
    simp only [Bool.or_eq_true, decide_eq_true_eq]
    omega
  have hp := List.sorted_mergeSort htrans htotal l
  exact hp.imp (fun h => by exact decide_eq_true_eq.mp h)

end Nozomi

/-! ## Claims about the Nozomi parser -/

/-- C1: for every fetched payload and every complete 4-byte record at offset
`4 * k`, the decoder ignores the record's first byte and combines the
remaining three most-significant first: the `k`-th decoded (pre-sort) value
equals `bytes[4k+1] * 65536 + bytes[4k+2] * 256 + bytes[4k+3]`, and that
value appears in the output of `parse`. -/
theorem claimC1 (data : List (Fin 256)) (k : Nat) (b1 b2 b3 : Fin 256)
    (h1 : data[4 * k + 1]? = some b1) (h2 : data[4 * k + 2]? = some b2)
    (h3 : data[4 * k + 3]? = some b3)
    (n : Nozomi) (hn : n.request_data = some data) :
    ∃ res l, Nozomi.outerLoop data 0 = .ok res ∧
      res[k]? = some (((b1 : Nat) : Int) * 65536 + ((b2 : Nat) : Int) * 256
        + ((b3 : Nat) : Int)) ∧
      n.parse = .ok l ∧
      (((b1 : Nat) : Int) * 65536 + ((b2 : Nat) : Int) * 256 + ((b3 : Nat) : Int)) ∈ l := by
  have h1z : data[0 + 4 * k + 1]? = some b1 := by simpa using h1
  have h2z : data[0 + 4 * k + 2]? = some b2 := by simpa using h2
  have h3z : data[0 + 4 * k + 3]? = some b3 := by simpa using h3
  obtain ⟨res, hres, hget⟩ := Nozomi.outerLoop_get data k 0 b1 b2 b3 h1z h2z h3z
  refine ⟨res, Nozomi.sortDesc res, hres, hget, ?_, ?_⟩
  · simp [Nozomi.parse, Nozomi.request_data_acc, hn, hres]
  · have hmem : (((b1 : Nat) : Int) * 65536 + ((b2 : Nat) : Int) * 256
        + ((b3 : Nat) : Int)) ∈ res := by
      exact List.getElem?_mem hget
    simpa [Nozomi.sortDesc] using hmem

/-- Witness for C1 at the concrete payload `[9, 1, 2, 3]`: the reserved
byte 9 is ignored and the record decodes to `1 * 65536 + 2 * 256 + 3`. -/
theorem claimC1_witness :
    ∃ res l, Nozomi.outerLoop ([9, 1, 2, 3] : List (Fin 256)) 0 = .ok res ∧
      res[0]? = some ((((1 : Fin 256) : Nat) : Int) * 65536
        + (((2 : Fin 256) : Nat) : Int) * 256 + (((3 : Fin 256) : Nat) : Int)) ∧
      (Nozomi.mk 1 1 "all" (some [9, 1, 2, 3])).parse = .ok l ∧
      ((((1 : Fin 256) : Nat) : Int) * 65536 + (((2 : Fin 256) : Nat) : Int) * 256
        + (((3 : Fin 256) : Nat) : Int)) ∈ l :=
  claimC1 [9, 1, 2, 3] 0 1 2 3 rfl rfl rfl (Nozomi.mk 1 1 "all" (some [9, 1, 2, 3])) rfl

/-- C2: for every fetched payload, `parse` succeeds (never a `DecodeError`):
a truncated trailing record terminates decoding, the result has one element
per complete 4-byte record (`length / 4`), hence is never longer than the
requested page size when the payload is at most `4 * per_page` bytes, and
has exactly `per_page` elements when the payload holds exactly `per_page`
complete records. -/
theorem claimC2 (n : Nozomi) (data : List (Fin 256))
    (h : n.request_data = some data) :
    ∃ l, n.parse = .ok l ∧ l.length = data.length / 4 ∧
      (data.length ≤ 4 * n.per_page → l.length ≤ n.per_page) ∧
      (data.length / 4 = n.per_page → l.length = n.per_page) := by
  obtain ⟨res, hres, hlen⟩ := Nozomi.outerLoop_spec data 0
  have hsl : (Nozomi.sortDesc res).length = data.length / 4 := by
    unfold Nozomi.sortDesc
    rw [List.length_mergeSort]
    omega
  refine ⟨Nozomi.sortDesc res, ?_, hsl, ?_, ?_⟩
  · simp [Nozomi.parse, Nozomi.request_data_acc, h, hres]
  · intro hle; omega
  · intro heq; omega

/-- Witness for C2 at the 5-byte payload `[0, 0, 0, 5, 7]`: one complete
record plus a truncated one; decoding succeeds with exactly one element. -/
theorem claimC2_witness :
    ∃ l, (Nozomi.mk 1 1 "all" (some [0, 0, 0, 5, 7])).parse = .ok l ∧ l.length = 1 := by
  obtain ⟨l, hp, hlen, hle, heq⟩ :=
    claimC2 (Nozomi.mk 1 1 "all" (some [0, 0, 0, 5, 7])) [0, 0, 0, 5, 7] rfl
  exact ⟨l, hp, heq rfl⟩

/-- C3: every identifier sequence returned by `Nozomi.parse` is sorted in
descending numeric order: each adjacent pair satisfies `later ≤ earlier`. -/
theorem claimC3 (n : Nozomi) (l : List Int) (hp : n.parse = .ok l) :
    l.Chain' (fun a b => b ≤ a) := by
  cases hd : n.request_data with
  | none => simp [Nozomi.parse, Nozomi.request_data_acc, hd] at hp
  | some data =>
      obtain ⟨res, hres, -⟩ := Nozomi.outerLoop_spec data 0
      simp only [Nozomi.parse, Nozomi.request_data_acc, hd, hres, Outcome.bind_ok] at hp
      cases hp
      exact (Nozomi.sortDesc_pairwise res).chain'

unseal Nozomi.innerLoop Nozomi.outerLoop List.merge List.mergeSort in
/-- Witness for C3 at the payload `[0, 0, 0, 1, 0, 0, 0, 2]`: the decoded
records `[1, 2]` come back as `[2, 1]`, which is descending. -/
theorem claimC3_witness :
    List.Chain' (fun a b => b ≤ a) ([2, 1] : List Int) :=
  claimC3 (Nozomi.mk 1 2 "all" (some [0, 0, 0, 1, 0, 0, 0, 2])) [2, 1] rfl

/-! ## Claims about the Nozomi request arithmetic -/

/-- C9: for every page ≥ 1 and page size ≥ 1 (and no `usize` overflow),
`request` computes `start = (page-1) * per_page * 4`,
`end = start + per_page * 4 - 1`, and sends exactly that range in the
`Range` header (`bytes=start-end`). -/
theorem claimC9 (n : Nozomi) (fetched : List (Fin 256))
    (h1 : 1 ≤ n.page) (h2 : 1 ≤ n.per_page)
    (h3 : n.page * n.per_page * 4 < USIZE_SIZE) :
    n.request fetched = some ({ n with request_data := some fetched },
      "bytes=" ++ toString ((n.page - 1) * n.per_page * 4)
        ++ "-" ++ toString ((n.page - 1) * n.per_page * 4 + n.per_page * 4 - 1)) := by
  have key : (n.page - 1) * n.per_page * 4 + n.per_page * 4 = n.page * n.per_page * 4 := by
    have : (n.page - 1) * n.per_page * 4 + n.per_page * 4
        = ((n.page - 1) + 1) * n.per_page * 4 := by ring
    rw [this, Nat.sub_add_cancel h1]
  have le1 : (n.page - 1) * n.per_page ≤ n.page * n.per_page * 4 :=
    le_trans (Nat.mul_le_mul_right n.per_page (Nat.sub_le n.page 1))
      (Nat.le_mul_of_pos_right (n.page * n.per_page) (by norm_num))
  have le2 : (n.page - 1) * n.per_page * 4 ≤ n.page * n.per_page * 4 :=
    Nat.mul_le_mul_right 4 (Nat.mul_le_mul_right n.per_page (Nat.sub_le n.page 1))
  have le3 : n.per_page * 4 ≤ n.page * n.per_page * 4 := by
    calc n.per_page * 4 = 1 * (n.per_page * 4) := by ring
    _ ≤ n.page * (n.per_page * 4) := Nat.mul_le_mul_right (n.per_page * 4) h1
    _ = n.page * n.per_page * 4 := by ring
  have e1 : usizeSub n.page 1 = some (n.page - 1) := by
    unfold usizeSub; rw [if_pos h1]
  have e2 : usizeMul (n.page - 1) n.per_page = some ((n.page - 1) * n.per_page) := by
    unfold usizeMul; rw [if_pos (lt_of_le_of_lt le1 h3)]
  have e3 : usizeMul ((n.page - 1) * n.per_page) 4 = some ((n.page - 1) * n.per_page * 4) := by
    unfold usizeMul; rw [if_pos (lt_of_le_of_lt le2 h3)]
  have e4 : usizeMul n.per_page 4 = some (n.per_page * 4) := by
    unfold usizeMul; rw [if_pos (lt_of_le_of_lt le3 h3)]
  have e5 : usizeAdd ((n.page - 1) * n.per_page * 4) (n.per_page * 4)
      = some ((n.page - 1) * n.per_page * 4 + n.per_page * 4) := by
    unfold usizeAdd; rw [if_pos (by omega)]
  have e6 : usizeSub ((n.page - 1) * n.per_page * 4 + n.per_page * 4) 1
      = some ((n.page - 1) * n.per_page * 4 + n.per_page * 4 - 1) := by
    unfold usizeSub
    rw [if_pos]
    have : 4 ≤ n.page * n.per_page * 4 := by
      calc (4 : Nat) = 1 * 1 * 4 := by norm_num
      _ ≤ n.page * n.per_page * 4 :=
        Nat.mul_le_mul_right 4 (Nat.mul_le_mul h1 h2)
    omega
  have hbr : Nozomi.byteRange n.page n.per_page
      = some ((n.page - 1) * n.per_page * 4,
              (n.page - 1) * n.per_page * 4 + n.per_page * 4 - 1) := by
    unfold Nozomi.byteRange
    simp only [e1, e2, e3, e4, e5, e6, Option.bind_eq_bind, Option.some_bind]
  unfold Nozomi.request
  rw [hbr]

/-- Witness for C9 at page 2, page size 3: the computed range is bytes
12–23 and the header reads `bytes=12-23`. -/
theorem claimC9_witness :
    (Nozomi.mk 2 3 "all" none).request [] = some (Nozomi.mk 2 3 "all" (some []), "bytes=12-23") := by
  have h := claimC9 (Nozomi.mk 2 3 "all" none) [] (by norm_num) (by norm_num)
    (by norm_num [USIZE_SIZE])
  rw [h]
  decide

/-- C10: the byte-range computation is unchecked `usize` arithmetic with no
input validation: at `page = 0` the subexpression `page - 1` underflows and
at `per_page = 0` the subexpression `start + per_page * 4 - 1` underflows;
either way `request` aborts (no range and no error value is produced). -/
theorem claimC10 (per_page p : Nat) (lang : String) (fetched : List (Fin 256)) :
    Nozomi.byteRange 0 per_page = none ∧
    Nozomi.byteRange (p + 1) 0 = none ∧
    (Nozomi.mk 0 per_page lang none).request fetched = none ∧
    (Nozomi.mk (p + 1) 0 lang none).request fetched = none := by
  have ha : Nozomi.byteRange 0 per_page = none := by
    have e0 : usizeSub 0 1 = none := by unfold usizeSub; rw [if_neg (by omega)]
    unfold Nozomi.byteRange
    simp only [e0, Option.bind_eq_bind, Option.none_bind]
  have hb : Nozomi.byteRange (p + 1) 0 = none := by
    have e1 : usizeSub (p + 1) 1 = some p := by
      unfold usizeSub; rw [if_pos (by omega)]; norm_num
    have e2 : usizeMul p 0 = some 0 := by
      unfold usizeMul
      rw [Nat.mul_zero, if_pos (by unfold USIZE_SIZE; positivity)]
    have e3 : usizeMul 0 4 = some 0 := by
      unfold usizeMul
      rw [Nat.zero_mul, if_pos (by unfold USIZE_SIZE; positivity)]
    have e4 : usizeAdd 0 0 = some 0 := by
      unfold usizeAdd
      rw [if_pos (by unfold USIZE_SIZE; positivity)]
    have e5 : usizeSub 0 1 = none := by unfold usizeSub; rw [if_neg (by omega)]
    unfold Nozomi.byteRange
    simp only [e1, e2, e3, e4, e5, Option.bind_eq_bind, Option.some_bind,
      Option.none_bind]
  refine ⟨ha, hb, ?_, ?_⟩
  · unfold Nozomi.request
    rw [show (Nozomi.mk 0 per_page lang none).page = 0 from rfl,
        show (Nozomi.mk 0 per_page lang none).per_page = per_page from rfl, ha]
  · unfold Nozomi.request
    rw [show (Nozomi.mk (p + 1) 0 lang none).page = p + 1 from rfl,
        show (Nozomi.mk (p + 1) 0 lang none).per_page = 0 from rfl, hb]

/-! ## Claim about the shared lifecycle (both parsers) -/

/-- C8: for both parsers, `parse` — and the raw-payload accessor — on an
instance whose `request` has not succeeded fails with the NotFetchedError
`"Can't get request_data"`; after a successful `request` the payload
accessor succeeds. -/
theorem claimC8 (page pp : Nat) (lang : String) (gid : Int)
    (bytes : List (Fin 256)) (html : String) (parseDoc : String → Node) :
    (Nozomi.new page pp lang).parse = .err "Can't get request_data" ∧
    (Nozomi.new page pp lang).request_data_acc = .err "Can't get request_data" ∧
    Gallery.parse parseDoc (Gallery.new gid) = .err "Can't get request_data" ∧
    (Gallery.new gid).request_data_acc = .err "Can't get request_data" ∧
    (∀ (n₂ : Nozomi) (hdr : String),
      (Nozomi.new page pp lang).request bytes = some (n₂, hdr) →
      n₂.request_data_acc = .ok bytes) ∧
    ((Gallery.new gid).request html).request_data_acc = .ok html := by
  refine ⟨rfl, rfl, rfl, rfl, ?_, rfl⟩
  intro n₂ hdr h
  unfold Nozomi.request at h
  cases hbr : Nozomi.byteRange (Nozomi.new page pp lang).page
      (Nozomi.new page pp lang).per_page with
  | none => rw [hbr] at h; exact Option.noConfusion h
  | some se =>
      obtain ⟨s, e⟩ := se
      rw [hbr] at h
      simp only [Option.some.injEq, Prod.mk.injEq] at h
      obtain ⟨hn, -⟩ := h
      rw [← hn]
      rfl

/-- Witness for C8: page 1, page size 1 — the unfetched instance errs, the
fetched one yields its payload. -/
theorem claimC8_witness :
    (Nozomi.new 1 1 "all").parse = .err "Can't get request_data" ∧
    ((Gallery.new 7).request "<html></html>").request_data_acc = .ok "<html></html>" ∧
    (Nozomi.mk 1 1 "all" (some [])).request_data_acc = .ok [] := by
  have h := claimC8 1 1 "all" 7 [] "<html></html>" (fun _ => Node.text "")
  exact ⟨h.1, h.2.2.2.2.2, h.2.2.2.2.1 (Nozomi.mk 1 1 "all" (some [])) "bytes=0-3" (by decide)⟩

/-! ## Lemmas about the Gallery field decoders -/

namespace Gallery

theorem liTexts_forall2 : ∀ (ls : List Node) (ts : List String),
    liTexts ls = .ok ts →
    List.Forall₂ (fun li s => Node.headText li = some s) ls ts := by
  intro ls
  induction ls with
  | nil =>
      intro ts h
      simp only [liTexts, Outcome.ok.injEq] at h
      rw [← h]
      exact List.Forall₂.nil
  | cons li lis ih =>
      intro ts h
      unfold liTexts at h
      cases hh : li.headText with
      | none => rw [hh] at h; simp at h
      | some t =>
          rw [hh] at h
          simp only [unwrapO_some, Outcome.bind_ok] at h
          cases hrest : liTexts lis with
          | ok ts0 =>
              rw [hrest] at h
              simp only [Outcome.bind_ok, Outcome.ok.injEq] at h
              rw [← h]
              exact List.Forall₂.cons hh (ih ts0 hrest)
          | err e0 => rw [hrest] at h; simp at h
          | panic m0 => rw [hrest] at h; simp at h

theorem is_nothing_of_headText (e : Node) (t : String) (ht : e.headText = some t) :
    is_nothing e = .ok (t.trim == "N/A") := by
  unfold is_nothing
  rw [ht]
  rfl

theorem parse_groups_sentinel (e : Node) (t : String) (ht : e.headText = some t)
    (hna : t.trim = "N/A") : parse_groups e = .ok none := by
  unfold parse_groups
  rw [is_nothing_of_headText e t ht]
  simp [hna]

theorem parse_groups_not_sentinel (e : Node) (t : String) (ht : e.headText = some t)
    (hna : t.trim ≠ "N/A") :
    parse_groups e = Outcome.bind (parse_multiple_metadata e) (fun l => .ok (some l)) := by
  unfold parse_groups
  rw [is_nothing_of_headText e t ht]
  simp [hna]

theorem parse_groups_ok_none (e : Node) (t : String) (ht : e.headText = some t)
    (h : parse_groups e = .ok none) : t.trim = "N/A" := by
  by_contra hna
  rw [parse_groups_not_sentinel e t ht hna] at h
  cases hpm : parse_multiple_metadata e <;> rw [hpm] at h <;> simp at h

theorem parse_characters_ok_none_iff (e : Node) :
    parse_characters e = .ok none ↔ parse_multiple_metadata e = .ok [] := by
  unfold parse_characters
  cases hpm : parse_multiple_metadata e with
  | ok l =>
      by_cases hl : l = []
      · subst hl; simp
      · simp [hl, List.isEmpty_iff]
  | err e0 => simp
  | panic m0 => simp

theorem parse_characters_ok_some (e : Node) (l : List String)
    (h : parse_characters e = .ok (some l)) :
    parse_multiple_metadata e = .ok l ∧ l ≠ [] := by
  unfold parse_characters at h
  cases hpm : parse_multiple_metadata e with
  | ok l0 =>
      rw [hpm] at h
      by_cases hl : l0 = []
      · subst hl; simp at h
      · simp only [Outcome.bind_ok, List.isEmpty_iff, if_neg hl, Outcome.ok.injEq,
          Option.some.injEq] at h
        rw [← h]
        exact ⟨rfl, hl⟩
  | err e0 => rw [hpm] at h; simp at h
  | panic m0 => rw [hpm] at h; simp at h

theorem parse_multiple_ok (e : Node) (ts : List String)
    (h : parse_multiple_metadata e = .ok ts) :
    ∃ ul, (e.selectTag "ul").head? = some ul ∧
      List.Forall₂ (fun li s => Node.headText li = some s) (ul.selectTag "li") ts := by
  unfold parse_multiple_metadata at h
  cases hul : (e.selectTag "ul").head? with
  | none => rw [hul] at h; simp at h
  | some ul =>
      rw [hul] at h
      simp only [unwrapO_some, Outcome.bind_ok] at h
      exact ⟨ul, rfl, liTexts_forall2 _ _ h⟩

end Gallery

/-! ## Concrete HTML fixtures -/

/-- A document with no `.gallery-info > table` at all. -/
def docNoTable : Node := .elem "html" [] []

/-- A document whose info table has no row at all (hence no matching row). -/
def docNoRow : Node :=
  .elem "html" []
    [.elem "div" [("class", "gallery-info")]
      [.elem "table" [] []]]

/-- A document whose matching row has only one cell. -/
def docOneCell : Node :=
  .elem "html" []
    [.elem "div" [("class", "gallery-info")]
      [.elem "table" []
        [.elem "tr" [] [.elem "td" [] [.text "Characters"]]]]]

/-- A document whose Groups value region carries a non-sentinel text and an
empty unordered list. -/
def docGroupsEmptyList : Node :=
  .elem "html" []
    [.elem "div" [("class", "gallery-info")]
      [.elem "table" []
        [.elem "tr" []
          [.elem "td" [] [.text "Groups"],
           .elem "td" [] [.text "x", .elem "ul" [] []]]]]]

/-- A document whose Characters value region holds a one-item list. -/
def docCharactersOne : Node :=
  .elem "html" []
    [.elem "div" [("class", "gallery-info")]
      [.elem "table" []
        [.elem "tr" []
          [.elem "td" [] [.text "Characters"],
           .elem "td" [] [.elem "ul" [] [.elem "li" [] [.text "a"]]]]]]]

/-- A redirect page whose body holds no anchor. -/
def docRedirectNoAnchor : Node :=
  .elem "html" [] [.elem "body" [] [.text "no link here"]]

/-- A redirect page whose body anchor has no `href` attribute. -/
def docRedirectAnchorNoHref : Node :=
  .elem "html" [] [.elem "body" [] [.elem "a" [] [.text "link to the content"]]]

/-- A redirect page with the expected `body > a` anchor. -/
def docRedirectAnchor : Node :=
  .elem "html" []
    [.elem "body" []
      [.text "If you are not redirected automatically, follow the ",
       .elem "a" [("href", "https://hitomi.la/doujinshi/x-1744332.html")]
         [.text "link to the content"]]]

/-- A value region holding one list item with text, used as a generic
well-formed region. -/
def regionOneItem : Node :=
  .elem "td" [] [.elem "ul" [] [.elem "li" [] [.text "a"]]]

/-! ## Claims about the Gallery parser -/

unseal String.splitOnAux in
/-- C4: the claim says `parse_metadata` fails with a returned
`StructureError` value when the info table, the matching row, or the second
cell is missing.  The code instead `unwrap`s: each of the three failure
modes is a process abort (`Outcome.panic`), not a returned error value. -/
theorem claimC4 :
    Gallery.parse_metadata docNoTable (.Characters none)
      = .panic "parse_metadata: no .gallery-info > table" ∧
    Gallery.parse_metadata docNoRow (.Characters none)
      = .panic "parse_metadata: no matching row" ∧
    Gallery.parse_metadata docOneCell (.Characters none)
      = .panic "parse_metadata: no second td" :=
  ⟨rfl, rfl, rfl⟩

/-- C5: the claim says `url()` fails with a returned `ResolutionError`
value when the redirect body has no anchor carrying the content address.
The code instead `unwrap`s/`expect`s: both anchor-less shapes are process
aborts.  The positive half holds: with the anchor present, the `href`
value is returned. -/
theorem claimC5 :
    Gallery.resolve_content_url docRedirectNoAnchor
      = .panic "url: no body > a anchor" ∧
    Gallery.resolve_content_url docRedirectAnchorNoHref
      = .panic "Can't find `Content URL` in `parser::Gallery`" ∧
    Gallery.resolve_content_url docRedirectAnchor
      = .ok "https://hitomi.la/doujinshi/x-1744332.html" :=
  ⟨rfl, rfl, rfl⟩

unseal String.splitOnAux Substring.takeWhileAux Substring.takeRightWhileAux in
/-- C6 counterexample: decoding Groups on a region whose first text is not
the sentinel but whose list has no items yields `some []` — a field
populated with an empty list, which the claim says never occurs. -/
theorem claimC6_counterexample :
    Gallery.parse_metadata docGroupsEmptyList (.Groups none)
      = .ok (.Groups (some [])) ∧
    Gallery.parse_groups (.elem "td" [] [.text "x", .elem "ul" [] []])
      = .ok (some ([] : List String)) :=
  ⟨rfl, rfl⟩

/-- C6 (amended): the Characters field is never populated with an empty
list — both at the region level and in the record `parse_metadata`
produces; the Groups field, however, can be populated with an empty list
(see the counterexample). -/
theorem claimC6_amended :
    (∀ (e : Node) (l : List String),
      Gallery.parse_characters e = .ok (some l) → l ≠ []) ∧
    (∀ (doc : Node) (l : List String),
      Gallery.parse_metadata doc (.Characters none) = .ok (.Characters (some l)) →
      l ≠ []) := by
  have hreg : ∀ (e : Node) (l : List String),
      Gallery.parse_characters e = .ok (some l) → l ≠ [] := by
    intro e l h
    exact (Gallery.parse_characters_ok_some e l h).2
  refine ⟨hreg, ?_⟩
  intro doc l h
  unfold Gallery.parse_metadata at h
  cases htbl : (doc.selectChildOf (Node.hasClass "gallery-info") (Node.isTag "table")).head? with
  | none => rw [htbl] at h; simp at h
  | some tbl =>
      rw [htbl] at h
      simp only [unwrapO_some, Outcome.bind_ok] at h
      cases hrow : Gallery.findRow (Metadata.Characters none).as_str (tbl.selectTag "tr") with
      | err e0 => rw [hrow] at h; simp at h
      | panic m0 => rw [hrow] at h; simp at h
      | ok row =>
          rw [hrow] at h
          simp only [Outcome.bind_ok] at h
          cases htd : (row.selectTag "td")[1]? with
          | none => rw [htd] at h; simp at h
          | some r =>
              rw [htd] at h
              simp only [unwrapO_some, Outcome.bind_ok] at h
              cases hc : Gallery.parse_characters r with
              | err e0 => rw [hc] at h; simp at h
              | panic m0 => rw [hc] at h; simp at h
              | ok v =>
                  rw [hc] at h
                  simp only [Outcome.bind_ok, Outcome.ok.injEq, Metadata.Characters.injEq] at h
                  subst h
                  exact hreg r l hc

unseal String.splitOnAux in
/-- Witness for the amended C6 at a concrete document whose Characters
region holds one list item. -/
theorem claimC6_witness :
    Gallery.parse_metadata docCharactersOne (.Characters none)
      = .ok (.Characters (some ["a"])) ∧ ["a"] ≠ ([] : List String) :=
  ⟨rfl, claimC6_amended.2 docCharactersOne ["a"] rfl⟩

/-- C7: decoding is asymmetric between Groups and Characters.  For a value
region whose first text node (trimmed) is the sentinel `"N/A"`, Groups is
absent — and only then; otherwise Groups is the extracted list, populated.
The extraction maps each `li` of the region's first `ul` to its first text,
in list order.  Characters applies the same extraction with no sentinel
check and is absent exactly when the extracted list is empty. -/
theorem claimC7 (e : Node) (t : String) (ht : e.headText = some t) :
    (t.trim = "N/A" → Gallery.parse_groups e = .ok none) ∧
    (Gallery.parse_groups e = .ok none → t.trim = "N/A") ∧
    (t.trim ≠ "N/A" →
      Gallery.parse_groups e
        = Outcome.bind (Gallery.parse_multiple_metadata e) (fun l => .ok (some l))) ∧
    (∀ ts, Gallery.parse_multiple_metadata e = .ok ts →
      ∃ ul, (e.selectTag "ul").head? = some ul ∧
        List.Forall₂ (fun li s => Node.headText li = some s) (ul.selectTag "li") ts) ∧
    (Gallery.parse_characters e = .ok none ↔ Gallery.parse_multiple_metadata e = .ok []) ∧
    (∀ l, Gallery.parse_characters e = .ok (some l) →
      Gallery.parse_multiple_metadata e = .ok l ∧ l ≠ []) := by
  refine ⟨Gallery.parse_groups_sentinel e t ht, Gallery.parse_groups_ok_none e t ht,
    Gallery.parse_groups_not_sentinel e t ht, ?_,
    Gallery.parse_characters_ok_none_iff e, ?_⟩
  · intro ts h
    exact Gallery.parse_multiple_ok e ts h
  · intro l h
    exact Gallery.parse_characters_ok_some e l h

unseal Substring.takeWhileAux Substring.takeRightWhileAux in
/-- Witness for C7 at a region with first text `"a"` (not the sentinel): the
Groups decode equals the populated extraction, and Characters on the same
region is populated with the same non-empty list. -/
theorem claimC7_witness :
    Gallery.parse_groups regionOneItem
      = Outcome.bind (Gallery.parse_multiple_metadata regionOneItem)
        (fun l => .ok (some l)) ∧
    Gallery.parse_multiple_metadata regionOneItem = .ok ["a"] ∧
    Gallery.parse_characters regionOneItem = .ok (some ["a"]) :=
  ⟨(claimC7 regionOneItem "a" rfl).2.2.1 (by decide), rfl, rfl⟩
